import Mathlib

/-
Verification of the VBVA chunked-rendering pipeline
(`services/ultra_fast_processor.py`, `services/enhanced_tts.py`).

Durations are rationals (the code handles them as Python floats, but all the
decisions under study are order comparisons and exact arithmetic on the probed
values, so ℚ is a faithful carrier).  External effects (ffmpeg, ffprobe, the
filesystem, the Wav2Lip renderer) are modelled as explicit environments whose
fields record what the external world would answer; each embedded function is
a pure function of its environment, mirroring the Python control flow line by
line.
-/

namespace VBVA

/-! ## Segmenter: `_split_audio_ultra_fast` (lines 257-411)

The pure planning part first.  The code picks a single ffmpeg `-segment_time`
value `t` from the probed duration `d`:

* `d ≤ 6`  : return `[audio_path]` (single chunk, line 266-268);
* `d ≤ 12` : return `[audio_path]` (single chunk, line 273-276);
* `d ≤ 18` : `t = d/2` (2 equal chunks, line 277-280);
* `d ≤ 24` : `t = d/3` (line 281-284);
* `d ≤ 30` : `t = d/4` (line 285-288);
* otherwise `t = 6` with `num_chunks = int(d/6)` and `remainder = d mod 6`;
  when `0 < remainder < 3.0` the code switches to `t = d/num_chunks`
  (equal chunks, lines 295-300); a remainder `≥ 3.0` keeps `t = 6` and only
  changes the logged chunk count (lines 301-304). -/

/-- Source `num_chunks = int(duration / chunk_duration)` of the `duration > 30`
branch (line 292; `int` truncates, which is the floor for positive values). -/
def fixedCount (d : ℚ) : ℕ := (⌊d / 6⌋).toNat

/-- Source `remainder = duration % chunk_duration` of the `duration > 30` branch
(line 293; Python float `%` is `d - 6·⌊d/6⌋` for positive operands). -/
def fixedRem (d : ℚ) : ℚ := d - 6 * fixedCount d

/-- ffmpeg segment time chosen by `_split_audio_ultra_fast`; `none` means the
function returns the whole track as a one-element chunk list. -/
def segmentTime (d : ℚ) : Option ℚ :=
  if d ≤ 6 then none
  else if d ≤ 12 then none
  else if d ≤ 18 then some (d / 2)
  else if d ≤ 24 then some (d / 3)
  else if d ≤ 30 then some (d / 4)
  else if 0 < fixedRem d ∧ fixedRem d < 3 then some (d / fixedCount d)
  else some 6

/-- Number of whole `t`-second chunks in a `d`-second input. -/
def chunkCount (d t : ℚ) : ℕ := (⌊d / t⌋).toNat

/-- Length of the trailing partial chunk, `0` when `t` divides `d`. -/
def chunkRem (d t : ℚ) : ℚ := d - t * chunkCount d t

/-- Durations of the chunk files ffmpeg `-f segment -segment_time t` produces
from a `d`-second input: full chunks of `t` seconds plus a final remainder
chunk when `t` does not divide `d`. -/
def plannedChunks (d t : ℚ) : List ℚ :=
  List.replicate (chunkCount d t) t ++ (if 0 < chunkRem d t then [chunkRem d t] else [])

/-- The chunk-duration plan of `_split_audio_ultra_fast` for a track of
duration `d`: `none` when the function returns the unsplit track. -/
def planOf (d : ℚ) : Option (List ℚ) :=
  (segmentTime d).map (plannedChunks d)

/-- Strategy decision of `_generate_video_ultra_fast` (lines 158-166):
single video generation up to 12 seconds, chunked path beyond. -/
inductive Strategy
  | single
  | parallel
deriving DecidableEq

def videoStrategy (d : ℚ) : Strategy :=
  if d ≤ 12 then .single else .parallel

/-- External answers consumed by the splitter: whether the ffmpeg segment run
succeeded (line 335), and the ffprobe-measured duration of each produced chunk
file (lines 362, 384; the same file is probed identically at both places). -/
structure SplitEnv where
  ffmpegOk : Bool
  measure : ℕ → ℚ

/-- Result of `_split_audio_ultra_fast`: `single` stands for returning the
original track as a one-element list, `chunks` for a list of chunk files with
the given measured durations. -/
inductive SplitResult
  | single
  | chunks (ds : List ℚ)
deriving DecidableEq

/-- The collection loop of lines 357-371: `for i in range(10)` reads chunk
files in index order, stops at the first missing file (the first `n` files
exist), and keeps a chunk only when its measured duration exceeds 1.0s
(shorter chunks are skipped, line 363-368, and the loop continues). -/
def collectedChunks (e : SplitEnv) (n : ℕ) : List ℚ :=
  (((List.range n).map e.measure).take 10).filter (fun x => 1 < x)

/-- Function `_split_audio_ultra_fast` end to end.  After collection the code sorts the
chunk paths and removes duplicate paths (lines 398-409); the filenames
`chunk_000.mp3 … chunk_009.mp3` are pairwise distinct and generated in
increasing order, so both operations are the identity and are not modelled.
Then: a total measured duration off by more than 1.0s from the track falls
back to the unsplit track (lines 377-380), and any collected chunk measuring
under 2.5s falls back to the unsplit track (lines 382-388). -/
def splitAudioUltraFast (e : SplitEnv) (d : ℚ) : SplitResult :=
  match segmentTime d with
  | none => .single
  | some t =>
    if e.ffmpegOk = false then .single
    else
      let cs := collectedChunks e (plannedChunks d t).length
      if 1 < |cs.sum - d| then .single
      else if cs.any (fun x => x < 5/2) then .single
      else .chunks cs

/-! ## Parallel render scheduler: `_process_chunks_ultra_fast` (lines 413-483)

`asyncio.gather` returns the per-task outcomes in task order, and task `i`
renders chunk `i` (line 441), so the result list is `(0, o₀), (1, o₁), …`.
An outcome is `none` when the task raised (line 449), or `some path` where an
empty `path` is skipped with a warning (line 460).  The collection loop
(lines 448-462) keeps, in order, the first occurrence of each non-empty path.
The second dedup pass (lines 469-480) re-deduplicates what is already
duplicate-free, so it is the identity and not modelled separately. -/

/-- The collection loop over the gathered `(index, outcome)` pairs, with the
set of already-appended paths threaded through. -/
def collectOrdered : List (ℕ × Option String) → List String → List (ℕ × String)
  | [], _ => []
  | (_, none) :: rest, seen => collectOrdered rest seen
  | (i, some p) :: rest, seen =>
    if p = "" ∨ p ∈ seen then collectOrdered rest seen
    else (i, p) :: collectOrdered rest (p :: seen)

/-- Function `_process_chunks_ultra_fast` over `n` chunks whose render outcomes are
given by `render` (outcome of `_generate_single_video_local_ultra_fast` on
chunk `i`), keeping the contributing segment index with each path. -/
def processChunksIdx (n : ℕ) (render : ℕ → Option String) : List (ℕ × String) :=
  collectOrdered ((List.range n).map (fun i => (i, render i))) []

/-- The value `_process_chunks_ultra_fast` actually returns: the ordered,
deduplicated video paths. -/
def processChunksPaths (n : ℕ) (render : ℕ → Option String) : List String :=
  (processChunksIdx n render).map Prod.snd

/-! ## Filesystem model, chunk validation, combination -/

/-- What the filesystem answers: `os.path.exists`, `os.path.getsize`, and the
ffprobe-measured duration of a video file. -/
structure FS where
  present : String → Bool
  fsize : String → ℕ
  fdur : String → ℚ

/-- Function `_validate_video_chunks` (lines 886-918): drops empty paths, paths already
seen, missing files and files under 1000 bytes; keeps order; a path enters the
seen set only when it is kept (lines 911-912). -/
def validateVideoChunksAux (fs : FS) : List String → List String → List String
  | [], _ => []
  | p :: rest, seen =>
    if p = "" then validateVideoChunksAux fs rest seen
    else if p ∈ seen then validateVideoChunksAux fs rest seen
    else if fs.present p = false then validateVideoChunksAux fs rest seen
    else if fs.fsize p < 1000 then validateVideoChunksAux fs rest seen
    else p :: validateVideoChunksAux fs rest (p :: seen)

def validateVideoChunks (fs : FS) (paths : List String) : List String :=
  validateVideoChunksAux fs paths []

/-- The dedup/existence filter inside `_combine_videos_with_improved_sync`
(lines 592-606): keep the first occurrence of each path that exists on disk;
a path enters the seen set only when kept (lines 596-598). -/
def uniqueExisting (fs : FS) : List String → List String → List String
  | [], _ => []
  | p :: rest, seen =>
    if p ∈ seen then uniqueExisting fs rest seen
    else if fs.present p = false then uniqueExisting fs rest seen
    else p :: uniqueExisting fs rest (p :: seen)

/-- External answers consumed by the combiner: the filesystem, whether the
ffmpeg concat run exited 0 (line 658), and the output path it writes (derived
at lines 613-617 from an md5 of the input paths; opaque here). -/
structure CombineEnv where
  fs : FS
  concatOk : Bool
  outPath : String

/-- Result of `_combine_videos_with_improved_sync`: the code returns `""` on
every failure path (lines 582, 610, 660, 667, 673) and never raises to its
caller (the enclosing `try/except` at line 671 also returns `""`). -/
inductive CombineResult
  | empty
  | passthrough (p : String)
  | combined (p : String)
deriving DecidableEq

/-- Function `_combine_videos_with_improved_sync` (lines 579-673): empty input → `""`;
one input → passthrough of that path (line 584-585); otherwise dedup/filter
the inputs, run the concat demuxer, and return the output path iff ffmpeg
exited 0 and the output exists with at least 1000 bytes (lines 658-669).
No duration of any file is ever probed in this function. -/
def combineVideosImprovedSync (e : CombineEnv) (paths : List String) : CombineResult :=
  if paths.isEmpty then .empty
  else if paths.length = 1 then .passthrough (paths.headD "")
  else
    let uniq := uniqueExisting e.fs paths []
    if uniq.isEmpty then .empty
    else if e.concatOk = false then .empty
    else if e.fs.present e.outPath = false ∨ e.fs.fsize e.outPath < 1000 then .empty
    else .combined e.outPath

/-! ## Pipeline controller: `_generate_parallel_video_ultra_fast` (201-255) -/

/-- One run of the parallel pipeline.  `chunks` is what
`_split_audio_ultra_fast` returned; `render` the per-index render outcomes;
`singleResult` the outcome `_generate_single_video_ultra_fast` would produce
on the full track (`Except.error` modelling a raised exception); `convert`
the web-URL conversion `_convert_to_web_format`. -/
structure PipeEnv where
  chunks : List String
  render : ℕ → Option String
  fs : FS
  cenv : CombineEnv
  singleResult : Except Unit String
  convert : String → String

deriving instance DecidableEq for Except

/-- Outcome of `_generate_parallel_video_ultra_fast` as seen by its caller.
`viaSingle r` covers every fallback to `_generate_single_video_ultra_fast`
(lines 215, 226, 234, 255): a fallback raising inside the `try` block is
caught at line 252 and re-runs the same single-pass call, so its outcome `r`
(success url, or a propagated terminal exception) is what the caller sees.
`emptyUrl` is the `return ""` of line 244 after a failed combination — a
normal return, not an exception.  `clip u` is the combined clip converted to
a web url. -/
inductive PipelineOutcome
  | viaSingle (r : Except Unit String)
  | emptyUrl
  | clip (url : String)
deriving DecidableEq

/-- Function `_generate_parallel_video_ultra_fast` (lines 201-255), step for step:
`≤ 1` chunk → single fallback (213-215); fewer/more video paths than chunks →
single fallback (223-226); validation removing every path → single fallback
(230-234); validation removing some paths → continue with the validated
subset (235); combination returning `""` → `return ""` (242-244); otherwise
convert and return the web url (247-250). -/
def generateParallelVideoUltraFast (e : PipeEnv) : PipelineOutcome :=
  if e.chunks.length ≤ 1 then .viaSingle e.singleResult
  else
    let videoPaths := processChunksPaths e.chunks.length e.render
    if videoPaths.length ≠ e.chunks.length then .viaSingle e.singleResult
    else
      let validated := validateVideoChunks e.fs videoPaths
      if validated.length ≠ videoPaths.length ∧ validated.length = 0 then
        .viaSingle e.singleResult
      else
        let finalPaths := if validated.length ≠ videoPaths.length then validated else videoPaths
        match combineVideosImprovedSync e.cenv finalPaths with
        | .empty => .emptyUrl
        | .passthrough p => .clip (e.convert p)
        | .combined p => .clip (e.convert p)

/-! ## Speech synthesis: `EnhancedTTSService.generate_speech`
(`services/enhanced_tts.py`, lines 93-154) -/

inductive TTSProvider
  | elevenlabs
  | gtts
  | offline
deriving DecidableEq

/-- Provider availability flags and per-provider outcomes.  `*Import` are the
module-level `ELEVENLABS_AVAILABLE` / `GTTS_AVAILABLE` flags, `*Enabled` the
instance flags set in `__init__`.  An outcome is `none` when the provider
call raised, `some s` when it returned the path `s`; the code treats an empty
returned path (`if audio_path:`) the same as a failure and falls through. -/
structure TTSEnv where
  elevenImport : Bool
  elevenEnabled : Bool
  gttsImport : Bool
  gttsEnabled : Bool
  offlineEnabled : Bool
  elevenOut : Option String
  gttsOut : Option String
  offlineOut : Option String

/-- Third block of `generate_speech` (lines 144-152) followed by the terminal
`raise Exception("All TTS providers failed")` (line 154).  The second
component records which providers were actually invoked. -/
def tryOffline (e : TTSEnv) (tried : List TTSProvider) :
    Except String String × List TTSProvider :=
  if e.offlineEnabled then
    match e.offlineOut with
    | some p =>
      if p = "" then (.error "All TTS providers failed", tried ++ [.offline])
      else (.ok p, tried ++ [.offline])
    | none => (.error "All TTS providers failed", tried ++ [.offline])
  else (.error "All TTS providers failed", tried)

/-- Second block of `generate_speech` (lines 133-141). -/
def tryGtts (e : TTSEnv) (tried : List TTSProvider) :
    Except String String × List TTSProvider :=
  if e.gttsImport && e.gttsEnabled then
    match e.gttsOut with
    | some p =>
      if p = "" then tryOffline e (tried ++ [.gtts])
      else (.ok p, tried ++ [.gtts])
    | none => tryOffline e (tried ++ [.gtts])
  else tryOffline e tried

/-- Function `generate_speech` (lines 119-154): ElevenLabs first (lines 120-130), then
gTTS, then offline, then the fatal error. -/
def generateSpeech (e : TTSEnv) : Except String String × List TTSProvider :=
  if e.elevenImport && e.elevenEnabled then
    match e.elevenOut with
    | some p =>
      if p = "" then tryGtts e [.elevenlabs]
      else (.ok p, [.elevenlabs])
    | none => tryGtts e [.elevenlabs]
  else tryGtts e []

/-- Availability gate of a provider, as checked by the corresponding block of
`generate_speech`. -/
def providerAvailable (e : TTSEnv) : TTSProvider → Bool
  | .elevenlabs => e.elevenImport && e.elevenEnabled
  | .gtts => e.gttsImport && e.gttsEnabled
  | .offline => e.offlineEnabled

/-- Successful audio produced by a provider, if any: a raised exception or an
empty returned path both count as failure. -/
def providerSuccess (e : TTSEnv) : TTSProvider → Option String
  | .elevenlabs => (e.elevenOut).bind (fun s => if s = "" then none else some s)
  | .gtts => (e.gttsOut).bind (fun s => if s = "" then none else some s)
  | .offline => (e.offlineOut).bind (fun s => if s = "" then none else some s)

/-- The fixed provider priority order of the synthesis stage. -/
def priorityOrder : List TTSProvider := [.elevenlabs, .gtts, .offline]

/-- Modelled from the spec for comparison with `generateSpeech`: walk the
priority list; skip unavailable providers without invoking them; invoke each
available provider in turn and return its result on success; fail fatally
exactly when every provider in the list has failed or was unavailable. -/
def specFallbackGo (e : TTSEnv) : List TTSProvider → List TTSProvider →
    Except String String × List TTSProvider
  | [], tried => (.error "All TTS providers failed", tried)
  | p :: rest, tried =>
    if providerAvailable e p then
      match providerSuccess e p with
      | some s => (.ok s, tried ++ [p])
      | none => specFallbackGo e rest (tried ++ [p])
    else specFallbackGo e rest tried

/-- Spec-side synthesis stage: ordered-priority fallback over the fixed list. -/
def specFallback (e : TTSEnv) : Except String String × List TTSProvider :=
  specFallbackGo e priorityOrder []

/-! ## Result cache in the ultra-fast path
(`_generate_audio_ultra_fast` lines 124-140, `_run_wav2lip_ultra_fast`
lines 485-510, `generate_speech` lines 115-117) -/

/-- Cache entries that exist on disk when a request arrives: a valid audio
artifact per audio cache key, a valid video artifact per video cache key
(what `_check_audio_cache` / `_check_video_cache` would return if consulted). -/
structure UltraCacheState where
  audioEntry : String → Option String
  videoEntry : String → Option String

/-- Invocation counters for the two external adapters the cache is meant to
protect: the speech-synthesis provider and the Wav2Lip renderer. -/
structure CallCounts where
  tts : ℕ
  wav2lip : ℕ
deriving DecidableEq

/-- Function `_generate_audio_ultra_fast` (lines 124-140): the cache consultation at
lines 127-132 and the cache write at line 138 are commented out
("Temporarily disable caching to ensure fresh content"), so the function
always invokes `tts_service.generate_speech` regardless of the cache state
`cache`, which it never reads. -/
def generateAudioUltraFast (tts : String → String → String)
    (cache : UltraCacheState) (c : CallCounts) (text agentType : String) :
    String × CallCounts :=
  (tts text agentType, { c with tts := c.tts + 1 })

/-- Function `_run_wav2lip_ultra_fast` (lines 485-577): the cache lookup at lines
499-505 is commented out, and the cache key itself embeds a per-request
timestamp (lines 494-496), so the renderer subprocess is always launched;
`cache` is never read. -/
def runWav2lipUltraFast (cache : UltraCacheState) (c : CallCounts)
    (audioPath avatarPath : String) : String × CallCounts :=
  ("/tmp/wav2lip_ultra_outputs/" ++ audioPath ++ "_" ++ avatarPath ++ ".mp4",
    { c with wav2lip := c.wav2lip + 1 })

/-- One ultra-fast request on the short-content path
(`process_video_ultra_fast` → `_generate_audio_ultra_fast` →
`_generate_video_ultra_fast` with duration ≤ 12 →
`_generate_single_video_ultra_fast` → `_run_wav2lip_ultra_fast`): one TTS
invocation then one renderer invocation. -/
def processRequestUltraFast (tts : String → String → String)
    (avatar : String → String) (cache : UltraCacheState) (c : CallCounts)
    (text agentType : String) : String × CallCounts :=
  let a := generateAudioUltraFast tts cache c text agentType
  runWav2lipUltraFast cache a.2 a.1 (avatar agentType)

/-- Two back-to-back requests with identical input, starting from zero
invocations: what the claim says the cache should make cheap. -/
def processTwiceUltraFast (tts : String → String → String)
    (avatar : String → String) (cache : UltraCacheState)
    (text agentType : String) : CallCounts :=
  let r1 := processRequestUltraFast tts avatar cache ⟨0, 0⟩ text agentType
  (processRequestUltraFast tts avatar cache r1.2 text agentType).2

/-! ## Helper lemmas -/

lemma collectOrdered_fst_sublist :
    ∀ (l : List (ℕ × Option String)) (seen : List String),
      ((collectOrdered l seen).map Prod.fst).Sublist (l.map Prod.fst)
  | [], _ => by simp [collectOrdered]
  | (i, none) :: tl, seen => by
      simpa [collectOrdered] using (collectOrdered_fst_sublist tl seen).cons i
  | (i, some p) :: tl, seen => by
      by_cases hg : p = "" ∨ p ∈ seen
      · simpa [collectOrdered, hg] using (collectOrdered_fst_sublist tl seen).cons i
      · simpa [collectOrdered, hg] using (collectOrdered_fst_sublist tl (p :: seen)).cons₂ i

lemma collectOrdered_snd_nodup :
    ∀ (l : List (ℕ × Option String)) (seen : List String),
      ((collectOrdered l seen).map Prod.snd).Nodup ∧
        ∀ q ∈ (collectOrdered l seen).map Prod.snd, q ∉ seen
  | [], _ => by simp [collectOrdered]
  | (i, none) :: tl, seen => by
      simpa [collectOrdered] using collectOrdered_snd_nodup tl seen
  | (i, some p) :: tl, seen => by
      by_cases hg : p = "" ∨ p ∈ seen
      · simpa [collectOrdered, hg] using collectOrdered_snd_nodup tl seen
      · obtain ⟨h1, h2⟩ := collectOrdered_snd_nodup tl (p :: seen)
        push_neg at hg
        simp only [collectOrdered, hg.1, hg.2, or_self, if_false, List.map_cons,
          List.nodup_cons, List.mem_cons]
        refine ⟨⟨fun hp => (h2 p hp) (List.mem_cons_self p seen), h1⟩, ?_⟩
        rintro q (rfl | hq2)
        · exact hg.2
        · exact fun hqs => (h2 q hq2) (List.mem_cons_of_mem p hqs)

lemma processChunksIdx_fst_sublist (n : ℕ) (render : ℕ → Option String) :
    ((processChunksIdx n render).map Prod.fst).Sublist (List.range n) := by
  have h := collectOrdered_fst_sublist ((List.range n).map (fun i => (i, render i))) []
  simpa [processChunksIdx, List.map_map, Function.comp_def] using h

lemma processChunksPaths_length_lt_of_missing (n : ℕ) (render : ℕ → Option String)
    (i : ℕ) (hi : i < n)
    (hm : i ∉ (processChunksIdx n render).map Prod.fst) :
    (processChunksPaths n render).length < n := by
  have hsub := processChunksIdx_fst_sublist n render
  have hle : ((processChunksIdx n render).map Prod.fst).length ≤ n := by
    simpa using hsub.length_le
  rcases lt_or_eq_of_le hle with h | h
  · simpa [processChunksPaths] using h
  · exfalso
    have heq := hsub.eq_of_length (by simpa using h)
    rw [heq] at hm
    exact hm (List.mem_range.mpr hi)

lemma plannedChunks_div (d : ℚ) (k : ℕ) (hk : 0 < k) (hd : d ≠ 0) :
    plannedChunks d (d / (k : ℚ)) = List.replicate k (d / (k : ℚ)) := by
  have hk0 : ((k : ℚ)) ≠ 0 := Nat.cast_ne_zero.mpr hk.ne'
  have ht : d / (d / (k : ℚ)) = (k : ℚ) := by
    rw [div_div_eq_mul_div, mul_comm, mul_div_assoc, div_self hd, mul_one]
  have hn : chunkCount d (d / (k : ℚ)) = k := by
    unfold chunkCount
    rw [ht, Int.floor_natCast, Int.toNat_natCast]
  have hr : chunkRem d (d / (k : ℚ)) = 0 := by
    unfold chunkRem
    rw [hn, div_mul_cancel₀ d hk0, sub_self]
  unfold plannedChunks
  rw [hn, hr]
  simp

lemma fixedCount_bounds (d : ℚ) (h : 30 < d) :
    6 * ((fixedCount d : ℕ) : ℚ) ≤ d ∧ d < 6 * ((fixedCount d : ℕ) : ℚ) + 6 ∧
      5 ≤ fixedCount d := by
  have hfl : ((⌊d / 6⌋ : ℤ) : ℚ) ≤ d / 6 := Int.floor_le _
  have hfl2 : d / 6 < ((⌊d / 6⌋ : ℤ) : ℚ) + 1 := Int.lt_floor_add_one _
  have h5 : (5 : ℤ) ≤ ⌊d / 6⌋ := by
    apply Int.le_floor.mpr
    push_cast
    linarith
  have hnn : (0 : ℤ) ≤ ⌊d / 6⌋ := le_trans (by norm_num) h5
  have hcast : ((fixedCount d : ℕ) : ℚ) = ((⌊d / 6⌋ : ℤ) : ℚ) := by
    unfold fixedCount
    exact_mod_cast congrArg (fun z : ℤ => (z : ℚ)) (Int.toNat_of_nonneg hnn)
  refine ⟨by rw [hcast]; linarith, by rw [hcast]; linarith, ?_⟩
  unfold fixedCount
  omega

lemma segmentTime_gt30 (d : ℚ) (h : 30 < d) :
    segmentTime d =
      if 0 < fixedRem d ∧ fixedRem d < 3 then some (d / (fixedCount d : ℚ))
      else some 6 := by
  have h6 : ¬ d ≤ 6 := by linarith
  have h12 : ¬ d ≤ 12 := by linarith
  have h18 : ¬ d ≤ 18 := by linarith
  have h24 : ¬ d ≤ 24 := by linarith
  have h30 : ¬ d ≤ 30 := by linarith
  simp only [segmentTime, if_neg h6, if_neg h12, if_neg h18, if_neg h24, if_neg h30]

lemma chunkCount_six (d : ℚ) : chunkCount d 6 = fixedCount d := rfl

lemma chunkRem_six (d : ℚ) : chunkRem d 6 = fixedRem d := rfl

lemma planOf_band2 (d : ℚ) (h1 : 12 < d) (h2 : d ≤ 18) :
    planOf d = some (List.replicate 2 (d / 2)) := by
  have hd : d ≠ 0 := by intro h; rw [h] at h1; norm_num at h1
  have hst : segmentTime d = some (d / 2) := by
    simp only [segmentTime, if_neg (by linarith : ¬ d ≤ 6),
      if_neg (by linarith : ¬ d ≤ 12), if_pos h2]
  have hc : ((2 : ℕ) : ℚ) = 2 := by norm_num
  rw [planOf, hst, Option.map_some', ← hc, plannedChunks_div d 2 (by norm_num) hd]

lemma planOf_band3 (d : ℚ) (h1 : 18 < d) (h2 : d ≤ 24) :
    planOf d = some (List.replicate 3 (d / 3)) := by
  have hd : d ≠ 0 := by intro h; rw [h] at h1; norm_num at h1
  have hst : segmentTime d = some (d / 3) := by
    simp only [segmentTime, if_neg (by linarith : ¬ d ≤ 6),
      if_neg (by linarith : ¬ d ≤ 12), if_neg (by linarith : ¬ d ≤ 18), if_pos h2]
  have hc : ((3 : ℕ) : ℚ) = 3 := by norm_num
  rw [planOf, hst, Option.map_some', ← hc, plannedChunks_div d 3 (by norm_num) hd]

lemma planOf_band4 (d : ℚ) (h1 : 24 < d) (h2 : d ≤ 30) :
    planOf d = some (List.replicate 4 (d / 4)) := by
  have hd : d ≠ 0 := by intro h; rw [h] at h1; norm_num at h1
  have hst : segmentTime d = some (d / 4) := by
    simp only [segmentTime, if_neg (by linarith : ¬ d ≤ 6),
      if_neg (by linarith : ¬ d ≤ 12), if_neg (by linarith : ¬ d ≤ 18),
      if_neg (by linarith : ¬ d ≤ 24), if_pos h2]
  have hc : ((4 : ℕ) : ℚ) = 4 := by norm_num
  rw [planOf, hst, Option.map_some', ← hc, plannedChunks_div d 4 (by norm_num) hd]

lemma planOf_rem0 (d : ℚ) (h : 30 < d) (hr : fixedRem d = 0) :
    planOf d = some (List.replicate (fixedCount d) 6) := by
  have hst : segmentTime d = some 6 := by
    rw [segmentTime_gt30 d h, if_neg]
    rintro ⟨hr1, -⟩
    rw [hr] at hr1
    exact absurd hr1 (by norm_num)
  rw [planOf, hst, Option.map_some']
  unfold plannedChunks
  rw [chunkCount_six, chunkRem_six, hr]
  simp

lemma planOf_rem_ge3 (d : ℚ) (h : 30 < d) (hr : 3 ≤ fixedRem d) :
    planOf d = some (List.replicate (fixedCount d) 6 ++ [fixedRem d]) := by
  have hst : segmentTime d = some 6 := by
    rw [segmentTime_gt30 d h, if_neg]
    rintro ⟨-, hr2⟩
    linarith
  rw [planOf, hst, Option.map_some']
  unfold plannedChunks
  rw [chunkCount_six, chunkRem_six, if_pos (by linarith : (0 : ℚ) < fixedRem d)]

lemma planOf_rem_lt3 (d : ℚ) (h : 30 < d) (hr1 : 0 < fixedRem d) (hr2 : fixedRem d < 3) :
    planOf d = some (List.replicate (fixedCount d) (d / (fixedCount d : ℚ))) := by
  obtain ⟨hb1, hb2, hb3⟩ := fixedCount_bounds d h
  have hd : d ≠ 0 := by intro hh; rw [hh] at h; norm_num at h
  have hst : segmentTime d = some (d / (fixedCount d : ℚ)) := by
    rw [segmentTime_gt30 d h, if_pos ⟨hr1, hr2⟩]
  rw [planOf, hst, Option.map_some',
    plannedChunks_div d (fixedCount d) (by omega) hd]

/-! ## Claim theorems -/

/-- C4: for every audio track whose duration is at most the single-pass
ceiling of 12 seconds, the strategy switch of `_generate_video_ultra_fast`
selects single video generation, and `_split_audio_ultra_fast` returns a
one-segment plan (the unsplit track) under every environment. -/
theorem c4_single_pass_ceiling (d : ℚ) (e : SplitEnv) (h : d ≤ 12) :
    videoStrategy d = .single ∧ segmentTime d = none ∧
      splitAudioUltraFast e d = .single := by
  have hst : segmentTime d = none := by
    by_cases h6 : d ≤ 6 <;> simp [segmentTime, h, h6]
  refine ⟨by simp [videoStrategy, h], hst, ?_⟩
  simp [splitAudioUltraFast, hst]

/-- Witness for `c4_single_pass_ceiling` at a 5-second track. -/
theorem c4_single_pass_ceiling_witness :
    videoStrategy 5 = .single ∧ segmentTime 5 = none ∧
      splitAudioUltraFast ⟨true, fun _ => 0⟩ 5 = .single :=
  c4_single_pass_ceiling 5 ⟨true, fun _ => 0⟩ (by norm_num)

/-- C7: the video-path list that `_process_chunks_ultra_fast` hands to the
recombiner is ordered by segment index (the contributing indices are strictly
increasing), contains no duplicate entries, and each segment index contributes
at most one rendered clip, for every chunk count and every assignment of
render outcomes. -/
theorem c7_ordered_no_duplicates (n : ℕ) (render : ℕ → Option String) :
    ((processChunksIdx n render).map Prod.fst).Pairwise (· < ·) ∧
      (processChunksPaths n render).Nodup ∧
      ∀ i : ℕ, ((processChunksIdx n render).map Prod.fst).count i ≤ 1 := by
  have hpw : ((processChunksIdx n render).map Prod.fst).Pairwise (· < ·) :=
    (List.pairwise_lt_range n).sublist (processChunksIdx_fst_sublist n render)
  refine ⟨hpw, ?_, ?_⟩
  · exact (collectOrdered_snd_nodup ((List.range n).map (fun i => (i, render i))) []).1
  · intro i
    have hnd : ((processChunksIdx n render).map Prod.fst).Nodup :=
      hpw.imp ne_of_lt
    exact List.nodup_iff_count_le_one.mp hnd i

/-- C2: in every parallel run with more than one planned segment, if the
scheduler collects fewer video paths than planned segments — in particular
whenever some planned segment index contributes no result — then
`_generate_parallel_video_ultra_fast` falls back to the forced single-segment
render (whose own outcome, success or terminal exception, is what reaches the
caller); it does not run the combiner, so no combined clip is built from a
proper subset of the planned segments. -/
theorem c2_insufficient_results_escalate (e : PipeEnv) (i : ℕ)
    (h1 : 1 < e.chunks.length)
    (h2 : (processChunksPaths e.chunks.length e.render).length < e.chunks.length ∨
      (i < e.chunks.length ∧
        i ∉ (processChunksIdx e.chunks.length e.render).map Prod.fst)) :
    generateParallelVideoUltraFast e = .viaSingle e.singleResult := by
  have hlt : (processChunksPaths e.chunks.length e.render).length < e.chunks.length := by
    rcases h2 with h | ⟨hi, hm⟩
    · exact h
    · exact processChunksPaths_length_lt_of_missing e.chunks.length e.render i hi hm
  have hne : (processChunksPaths e.chunks.length e.render).length ≠ e.chunks.length :=
    ne_of_lt hlt
  simp only [generateParallelVideoUltraFast]
  rw [if_neg (by omega), if_pos hne]

/-- Witness for `c2_insufficient_results_escalate`: two planned segments, both
render tasks raise, zero collected results. -/
theorem c2_insufficient_results_escalate_witness :
    generateParallelVideoUltraFast
      ⟨["c0.mp3", "c1.mp3"], fun _ => none, ⟨fun _ => true, fun _ => 5000, fun _ => 6⟩,
        ⟨⟨fun _ => true, fun _ => 5000, fun _ => 6⟩, true, "/tmp/out.mp4"⟩,
        Except.ok "http://single", fun s => s⟩ =
      .viaSingle (Except.ok "http://single") :=
  c2_insufficient_results_escalate _ 0 (by decide) (Or.inl (by decide))

/-- C5: above the 12-second single-pass ceiling, `_split_audio_ultra_fast`
selects 2 equal segments up to 18s, 3 up to 24s, 4 up to 30s; beyond 30s it
uses fixed 6-second segments (with a trailing remainder segment when the
remainder is at least the 3.0s stability threshold), and a positive remainder
below the threshold is absorbed by switching to `int(d/6)` equal-sized
segments. -/
theorem c5_duration_bands (d : ℚ) (h12 : 12 < d) :
    (d ≤ 18 → planOf d = some (List.replicate 2 (d / 2))) ∧
    (18 < d → d ≤ 24 → planOf d = some (List.replicate 3 (d / 3))) ∧
    (24 < d → d ≤ 30 → planOf d = some (List.replicate 4 (d / 4))) ∧
    (30 < d → fixedRem d = 0 → planOf d = some (List.replicate (fixedCount d) 6)) ∧
    (30 < d → 0 < fixedRem d → fixedRem d < 3 →
      planOf d = some (List.replicate (fixedCount d) (d / (fixedCount d : ℚ)))) ∧
    (30 < d → 3 ≤ fixedRem d →
      planOf d = some (List.replicate (fixedCount d) 6 ++ [fixedRem d])) :=
  ⟨fun h2 => planOf_band2 d h12 h2,
   fun h1 h2 => planOf_band3 d h1 h2,
   fun h1 h2 => planOf_band4 d h1 h2,
   fun h hr => planOf_rem0 d h hr,
   fun h hr1 hr2 => planOf_rem_lt3 d h hr1 hr2,
   fun h hr => planOf_rem_ge3 d h hr⟩

/-- Witness for `c5_duration_bands` at a 20-second track: the 18-24s band
applies and the plan is 3 equal segments. -/
theorem c5_duration_bands_witness :
    planOf 20 = some (List.replicate 3 (20 / 3)) :=
  (c5_duration_bands 20 (by norm_num)).2.1 (by norm_num) (by norm_num)

/-- Evaluation scaffold: once the segment time, the ffmpeg success and the
collected chunk list are known, `_split_audio_ultra_fast` reduces to its two
final checks. -/
lemma splitAudioUltraFast_eval (e : SplitEnv) (d t : ℚ) (cs : List ℚ)
    (hst : segmentTime d = some t) (hok : e.ffmpegOk = true)
    (hcs : collectedChunks e (plannedChunks d t).length = cs) :
    splitAudioUltraFast e d =
      if 1 < |cs.sum - d| then .single
      else if cs.any (fun x => x < 5/2) then .single
      else .chunks cs := by
  unfold splitAudioUltraFast
  rw [hst]
  simp only [hok, hcs, Bool.true_eq_false, if_false]

/-- The environment refuting C6: a 20-second track is planned as 3 equal
chunks; the produced chunk files measure 10s, 9s and 1s.  The 1-second
candidate segment is below the 2.5s floor, yet the splitter does not re-plan
as a single segment: the short chunk is silently dropped by the `> 1.0`
collection filter (line 363), the remaining total 19s passes the 1.0s
tolerance, and a two-chunk plan is used. -/
def c6Env : SplitEnv :=
  ⟨true, fun i => if i = 0 then 10 else if i = 1 then 9 else
    if i = 2 then 1 else 0⟩

lemma c6Env_plan_len : (plannedChunks 20 (20 / 3)).length = 3 := by
  have hc : chunkCount 20 (20 / 3) = 3 := by
    unfold chunkCount
    norm_num
    rfl
  have hr : chunkRem 20 (20 / 3) = 0 := by
    unfold chunkRem
    rw [hc]
    norm_num
  simp [plannedChunks, hc, hr]

lemma c6Env_collected : collectedChunks c6Env 3 = [10, 9] := by
  norm_num [collectedChunks, c6Env, List.range_succ, List.filter]

lemma c6Env_eval : splitAudioUltraFast c6Env 20 = .chunks [10, 9] := by
  have hst : segmentTime 20 = some (20 / 3) := by norm_num [segmentTime]
  rw [splitAudioUltraFast_eval c6Env 20 (20 / 3) [10, 9] hst rfl
    (by rw [c6Env_plan_len]; exact c6Env_collected)]
  norm_num [List.any_cons]

/-- Counterexample to C6 as stated: a candidate plan containing a segment
shorter than the 2.5s floor (the 1s third chunk measured by `c6Env`) is not
rejected; chunked rendering proceeds with the two surviving segments instead
of a single-segment re-plan. -/
theorem c6_short_segment_counterexample :
    splitAudioUltraFast c6Env 20 = .chunks [10, 9] ∧
    splitAudioUltraFast c6Env 20 ≠ .single ∧
    (plannedChunks 20 (20 / 3)).length = 3 ∧
    c6Env.measure 2 = 1 ∧ ((1 : ℚ) < 5/2) :=
  ⟨c6Env_eval, by rw [c6Env_eval]; simp, c6Env_plan_len, by norm_num [c6Env],
    by norm_num⟩

/-- C6 amended: every segment of a plan actually used for chunked rendering
measures at least the 2.5s floor (candidates between 1.0s and 2.5s do force a
single-segment re-plan), but candidate segments measuring at most 1.0s are
dropped from the plan instead of forcing a re-plan
(cf. `c6_short_segment_counterexample`). -/
theorem c6_no_short_segments_used (e : SplitEnv) (d : ℚ) (ds : List ℚ) (x : ℚ)
    (h : splitAudioUltraFast e d = .chunks ds) (hx : x ∈ ds) : 5/2 ≤ x := by
  unfold splitAudioUltraFast at h
  cases hst : segmentTime d with
  | none => rw [hst] at h; exact absurd h (by simp)
  | some t =>
    rw [hst] at h
    simp only at h
    split_ifs at h with hok htol hshort
    injection h with hds
    rw [hds] at hshort
    by_contra hlt
    push_neg at hlt
    exact hshort (List.any_eq_true.mpr ⟨x, hx, by simpa using hlt⟩)

/-- Witness for `c6_no_short_segments_used` on the concrete two-chunk plan of
`c6Env`. -/
theorem c6_no_short_segments_used_witness :
    splitAudioUltraFast c6Env 20 = .chunks [10, 9] ∧ (5/2 : ℚ) ≤ 10 :=
  ⟨c6Env_eval, c6_no_short_segments_used c6Env 20 [10, 9] 10
    c6Env_eval (by norm_num)⟩

/-- The splitter environment in which ffmpeg succeeds and every produced
chunk file measures exactly its planned duration. -/
def idealSplitEnv (cs : List ℚ) : SplitEnv := ⟨true, fun i => cs.getD i 0⟩

lemma map_getD_range (l : List ℚ) :
    (List.range l.length).map (fun i => l.getD i 0) = l := by
  induction l with
  | nil => simp
  | cons a t ih =>
    rw [List.length_cons, List.range_succ_eq_map, List.map_cons]
    simp only [List.getD_cons_zero, List.map_map]
    simp only [Function.comp_def, List.getD_cons_succ]
    rw [ih]

lemma collectedChunks_ideal (cs : List ℚ) :
    collectedChunks (idealSplitEnv cs) cs.length =
      (cs.take 10).filter (fun x => 1 < x) := by
  simp only [collectedChunks, idealSplitEnv]
  rw [map_getD_range]

lemma filter_take_replicate_sum (n : ℕ) (q : ℚ) (hq : 1 < q) (hn : 10 ≤ n) :
    (((List.replicate n q).take 10).filter (fun x => 1 < x)).sum = 10 * q := by
  rw [List.take_replicate, min_eq_left hn, List.filter_replicate,
    if_pos (by simpa using hq), List.sum_replicate, nsmul_eq_mul]
  norm_num

/-- Main content of C10: a plan of more than 10 chunks loses everything past
chunk index 9 to the `range(10)` collection loop, the summed duration then
misses the track duration by more than the 1.0s tolerance, and the splitter
falls back to the unsplit track — even when every chunk file is exactly as
planned. -/
lemma splitAudio_single_of_big_plan (d : ℚ) (cs : List ℚ)
    (hplan : planOf d = some cs) (hlen : 10 < cs.length) :
    splitAudioUltraFast (idealSplitEnv cs) d = .single := by
  obtain ⟨t, hst, hcs⟩ : ∃ t, segmentTime d = some t ∧ plannedChunks d t = cs := by
    unfold planOf at hplan
    cases hseg : segmentTime d with
    | none => rw [hseg] at hplan; simp at hplan
    | some t =>
      rw [hseg] at hplan
      exact ⟨t, rfl, by simpa using hplan⟩
  have hcoll : collectedChunks (idealSplitEnv cs) (plannedChunks d t).length =
      (cs.take 10).filter (fun x => 1 < x) := by
    rw [hcs, collectedChunks_ideal]
  rw [splitAudioUltraFast_eval (idealSplitEnv cs) d t _ hst rfl hcoll]
  have h12 : 12 < d := by
    by_contra hle
    push_neg at hle
    have : segmentTime d = none := by
      by_cases h6 : d ≤ 6 <;> simp [segmentTime, h6, hle]
    rw [this] at hst
    cases hst
  -- the duration bands up to 30s give at most 4 chunks, contradicting hlen
  have h30 : 30 < d := by
    by_contra hle
    push_neg at hle
    rcases le_or_lt d 18 with h18 | h18
    · have := planOf_band2 d h12 h18
      rw [hplan] at this
      have hcs2 : cs = List.replicate 2 (d / 2) := by simpa using this
      rw [hcs2] at hlen
      simp at hlen
    · rcases le_or_lt d 24 with h24 | h24
      · have := planOf_band3 d h18 h24
        rw [hplan] at this
        have hcs3 : cs = List.replicate 3 (d / 3) := by simpa using this
        rw [hcs3] at hlen
        simp at hlen
      · have := planOf_band4 d h24 hle
        rw [hplan] at this
        have hcs4 : cs = List.replicate 4 (d / 4) := by simpa using this
        rw [hcs4] at hlen
        simp at hlen
  obtain ⟨hb1, hb2, hb5⟩ := fixedCount_bounds d h30
  have hrnn : 0 ≤ fixedRem d := by unfold fixedRem; linarith
  rw [if_pos]
  rcases lt_or_le (fixedRem d) 3 with hr3 | hr3
  · rcases eq_or_lt_of_le hrnn with hr0 | hrpos
    · -- remainder zero: fixedCount chunks of 6 seconds, d = 6·fixedCount ≥ 66
      have hplan0 := planOf_rem0 d h30 hr0.symm
      rw [hplan] at hplan0
      have hcse : cs = List.replicate (fixedCount d) 6 := by simpa using hplan0
      have hn : 10 < fixedCount d := by
        rw [hcse] at hlen
        simpa using hlen
      have hsum : ((cs.take 10).filter (fun x => 1 < x)).sum = 60 := by
        rw [hcse, filter_take_replicate_sum (fixedCount d) 6 (by norm_num) (by omega)]
        norm_num
      rw [hsum]
      have hd66 : 66 ≤ d := by
        have : (11 : ℚ) ≤ ((fixedCount d : ℕ) : ℚ) := by exact_mod_cast hn
        have hd0 : d = 6 * ((fixedCount d : ℕ) : ℚ) := by
          have := hr0.symm
          unfold fixedRem at this
          linarith
        linarith
      rw [abs_sub_comm, abs_of_nonneg (by linarith)]
      linarith
    · -- positive remainder under 3: fixedCount equal chunks of d / fixedCount
      have hplanl := planOf_rem_lt3 d h30 hrpos hr3
      rw [hplan] at hplanl
      have hcse : cs = List.replicate (fixedCount d) (d / (fixedCount d : ℚ)) := by
        simpa using hplanl
      have hn : 10 < fixedCount d := by
        rw [hcse] at hlen
        simpa using hlen
      have hnq : (11 : ℚ) ≤ ((fixedCount d : ℕ) : ℚ) := by exact_mod_cast hn
      have hn0 : ((fixedCount d : ℕ) : ℚ) ≠ 0 := by
        intro h0
        rw [h0] at hnq
        norm_num at hnq
      have hq6 : (6 : ℚ) ≤ d / (fixedCount d : ℚ) := by
        rw [le_div_iff₀ (by linarith : (0:ℚ) < ((fixedCount d : ℕ) : ℚ))]
        linarith
      have hsum : ((cs.take 10).filter (fun x => 1 < x)).sum =
          10 * (d / (fixedCount d : ℚ)) := by
        rw [hcse, filter_take_replicate_sum (fixedCount d) _ (by linarith) (by omega)]
      rw [hsum]
      have hdq : d / (fixedCount d : ℚ) * ((fixedCount d : ℕ) : ℚ) = d :=
        div_mul_cancel₀ d hn0
      have hkey : 10 * (d / (fixedCount d : ℚ)) - d =
          -((d / (fixedCount d : ℚ)) * (((fixedCount d : ℕ) : ℚ) - 10)) := by
        rw [mul_sub, hdq]
        ring
      rw [hkey, abs_neg, abs_of_nonneg (by nlinarith)]
      nlinarith
  · -- remainder at least 3: fixedCount chunks of 6 plus a remainder chunk
    have hplang := planOf_rem_ge3 d h30 hr3
    rw [hplan] at hplang
    have hcse : cs = List.replicate (fixedCount d) 6 ++ [fixedRem d] := by
      simpa using hplang
    have hn : 10 ≤ fixedCount d := by
      rw [hcse] at hlen
      simp at hlen
      omega
    have hsum : ((cs.take 10).filter (fun x => 1 < x)).sum = 60 := by
      rw [hcse, List.take_append_of_le_length (by simpa using hn),
        List.take_replicate, min_eq_left hn, List.filter_replicate,
        if_pos (by norm_num), List.sum_replicate, nsmul_eq_mul]
      norm_num
    rw [hsum]
    have hnq : (10 : ℚ) ≤ ((fixedCount d : ℕ) : ℚ) := by exact_mod_cast hn
    have hd63 : 63 ≤ d := by
      have : fixedRem d = d - 6 * ((fixedCount d : ℕ) : ℚ) := rfl
      linarith
    rw [abs_sub_comm, abs_of_nonneg (by linarith)]
    linarith

/-- C10: the splitter collects at most the first 10 chunk files
(`for i in range(10)`, line 358); for every track whose plan has more than 10
segments — any track beyond roughly 60 seconds — the summed collected
duration misses the track duration by more than the 1.0s tolerance even under
ideal measurement, the splitter falls back to the unsplit track, and the
parallel path (receiving a one-element chunk list) falls back to the
single-segment render: chunked rendering is never used for such tracks. -/
theorem c10_ten_chunk_cap (d : ℚ) (cs : List ℚ) (pe : PipeEnv)
    (hplan : planOf d = some cs) (hlen : 10 < cs.length)
    (hpe : pe.chunks.length ≤ 1) :
    splitAudioUltraFast (idealSplitEnv cs) d = .single ∧
      generateParallelVideoUltraFast pe = .viaSingle pe.singleResult := by
  refine ⟨splitAudio_single_of_big_plan d cs hplan hlen, ?_⟩
  simp only [generateParallelVideoUltraFast]
  rw [if_pos hpe]

/-- Witness for `c10_ten_chunk_cap`: a 70-second track plans as 11 six-second
chunks plus a 4-second remainder (12 segments). -/
theorem c10_ten_chunk_cap_witness :
    splitAudioUltraFast (idealSplitEnv (List.replicate 11 6 ++ [4])) 70 = .single ∧
      generateParallelVideoUltraFast
        ⟨["whole.mp3"], fun _ => none, ⟨fun _ => true, fun _ => 5000, fun _ => 6⟩,
          ⟨⟨fun _ => true, fun _ => 5000, fun _ => 6⟩, true, "/tmp/out.mp4"⟩,
          Except.ok "http://single70", fun s => s⟩ =
        .viaSingle (Except.ok "http://single70") := by
  have hfc : fixedCount 70 = 11 := by
    unfold fixedCount
    norm_num
    rfl
  have hfr : fixedRem 70 = 4 := by
    unfold fixedRem
    rw [hfc]
    norm_num
  have hplan : planOf 70 = some (List.replicate 11 6 ++ [4]) := by
    have h := planOf_rem_ge3 70 (by norm_num) (by rw [hfr]; norm_num)
    rw [hfc, hfr] at h
    exact h
  exact c10_ten_chunk_cap 70 (List.replicate 11 6 ++ [4]) _ hplan (by simp)
    (by simp)

lemma tryOffline_eq_spec (e : TTSEnv) (tried : List TTSProvider) :
    tryOffline e tried = specFallbackGo e [.offline] tried := by
  cases hoe : e.offlineEnabled with
  | false => simp [tryOffline, specFallbackGo, providerAvailable, hoe]
  | true =>
    cases hoo : e.offlineOut with
    | none =>
      simp [tryOffline, specFallbackGo, providerAvailable, providerSuccess, hoe, hoo]
    | some s =>
      by_cases hs : s = "" <;>
        simp [tryOffline, specFallbackGo, providerAvailable, providerSuccess, hoe, hoo, hs]

lemma tryGtts_eq_spec (e : TTSEnv) (tried : List TTSProvider) :
    tryGtts e tried = specFallbackGo e [.gtts, .offline] tried := by
  cases hga : (e.gttsImport && e.gttsEnabled) with
  | false =>
    simp [tryGtts, specFallbackGo, providerAvailable, hga, tryOffline_eq_spec]
  | true =>
    cases hgo : e.gttsOut with
    | none =>
      simp [tryGtts, specFallbackGo, providerAvailable, providerSuccess, hga, hgo,
        tryOffline_eq_spec]
    | some s =>
      by_cases hs : s = "" <;>
        simp [tryGtts, specFallbackGo, providerAvailable, providerSuccess, hga, hgo, hs,
          tryOffline_eq_spec]

/-- C8: `generate_speech` is exactly the spec-side ordered-priority fallback
strategy over the fixed provider list `[elevenlabs, gtts, offline]` — it
returns the same result (the first available provider's successful audio, or
the fatal "All TTS providers failed" error exactly when every provider failed
or was unavailable) and invokes exactly the providers up to and including the
first success, never consulting later ones. -/
theorem c8_provider_priority_fallback (e : TTSEnv) :
    generateSpeech e = specFallback e := by
  cases hea : (e.elevenImport && e.elevenEnabled) with
  | false =>
    simp [generateSpeech, specFallback, specFallbackGo, priorityOrder,
      providerAvailable, hea, tryGtts_eq_spec]
  | true =>
    cases heo : e.elevenOut with
    | none =>
      simp [generateSpeech, specFallback, specFallbackGo, priorityOrder,
        providerAvailable, providerSuccess, hea, heo, tryGtts_eq_spec]
    | some s =>
      by_cases hs : s = "" <;>
        simp [generateSpeech, specFallback, specFallbackGo, priorityOrder,
          providerAvailable, providerSuccess, hea, heo, hs, tryGtts_eq_spec]

lemma uniqueExisting_congr (f1 f2 : FS) (h : f1.present = f2.present) :
    ∀ (l seen : List String), uniqueExisting f1 l seen = uniqueExisting f2 l seen := by
  intro l
  induction l with
  | nil => intro seen; rfl
  | cons p rest ih =>
    intro seen
    simp only [uniqueExisting, h]
    split_ifs <;> simp [ih]

lemma combineVideos_concat_failed (ce : CombineEnv) (paths : List String)
    (hlen : 2 ≤ paths.length) (hc : ce.concatOk = false) :
    combineVideosImprovedSync ce paths = .empty := by
  have hne : ¬ paths.isEmpty = true := by
    cases paths with
    | nil => simp at hlen
    | cons a l => simp
  have hone : ¬ paths.length = 1 := by omega
  simp only [combineVideosImprovedSync, hne, hone, if_false, hc]
  split_ifs <;> rfl

/-- The environment refuting C1: two 5-second rendered segments are combined;
ffmpeg concat succeeds and the output file exists with a healthy size, but its
measured duration is 100s against an input sum of 10s.  The combiner returns
the artifact anyway: it never probes any duration and has no mismatch check,
so no hard error is possible. -/
def c1Fs : FS :=
  ⟨fun _ => true, fun _ => 5000, fun p => if p = "/tmp/out.mp4" then 100 else 5⟩

def c1Env : CombineEnv := ⟨c1Fs, true, "/tmp/out.mp4"⟩

/-- Counterexample to C1 as stated: a grossly duration-mismatched combined
clip is returned as a success, not rejected with a hard error. -/
theorem c1_duration_check_counterexample :
    combineVideosImprovedSync c1Env ["a.mp4", "b.mp4"] = .combined "/tmp/out.mp4" ∧
    c1Fs.fdur "/tmp/out.mp4" = 100 ∧
    c1Fs.fdur "a.mp4" + c1Fs.fdur "b.mp4" = 10 ∧
    ¬ |c1Fs.fdur "/tmp/out.mp4" - (c1Fs.fdur "a.mp4" + c1Fs.fdur "b.mp4")| ≤ 1 := by
  refine ⟨by rfl, by rw [show c1Fs.fdur "/tmp/out.mp4" = 100 from by rfl], ?_, ?_⟩
  · show (if ("a.mp4" : String) = "/tmp/out.mp4" then (100 : ℚ) else 5) +
      (if ("b.mp4" : String) = "/tmp/out.mp4" then (100 : ℚ) else 5) = 10
    rw [if_neg (by decide), if_neg (by decide)]
    norm_num
  · show ¬ |(if ("/tmp/out.mp4" : String) = "/tmp/out.mp4" then (100 : ℚ) else 5) -
      ((if ("a.mp4" : String) = "/tmp/out.mp4" then (100 : ℚ) else 5) +
        (if ("b.mp4" : String) = "/tmp/out.mp4" then (100 : ℚ) else 5))| ≤ 1
    rw [if_pos rfl, if_neg (by decide), if_neg (by decide)]
    norm_num

/-- C1 amended: `_combine_videos_with_improved_sync` performs no duration
post-condition at all — its result is invariant under arbitrary changes to
every file's measured duration (it checks only existence, size and the concat
exit code) — and on a concat failure it returns the empty reference `""`
instead of raising a hard error. -/
theorem c1_no_duration_check (e1 e2 : CombineEnv) (paths : List String)
    (hp : e1.fs.present = e2.fs.present) (hs : e1.fs.fsize = e2.fs.fsize)
    (hc : e1.concatOk = e2.concatOk) (ho : e1.outPath = e2.outPath) :
    combineVideosImprovedSync e1 paths = combineVideosImprovedSync e2 paths ∧
      (2 ≤ paths.length → e1.concatOk = false →
        combineVideosImprovedSync e1 paths = .empty) := by
  constructor
  · obtain ⟨⟨p1, s1, d1⟩, k1, o1⟩ := e1
    obtain ⟨⟨p2, s2, d2⟩, k2, o2⟩ := e2
    simp only at hp hs hc ho
    subst hp hs hc ho
    simp only [combineVideosImprovedSync]
    rw [uniqueExisting_congr ⟨p1, s1, d1⟩ ⟨p1, s1, d2⟩ rfl]
  · intro hlen hfail
    exact combineVideos_concat_failed e1 paths hlen hfail

/-- Witness for `c1_no_duration_check`: the counterexample environment against
a copy whose duration answers all differ, and a concat-failure environment. -/
theorem c1_no_duration_check_witness :
    combineVideosImprovedSync c1Env ["a.mp4", "b.mp4"] =
      combineVideosImprovedSync ⟨⟨fun _ => true, fun _ => 5000, fun _ => 7⟩, true,
        "/tmp/out.mp4"⟩ ["a.mp4", "b.mp4"] ∧
    combineVideosImprovedSync ⟨c1Fs, false, "/tmp/out.mp4"⟩ ["a.mp4", "b.mp4"] = .empty :=
  ⟨(c1_no_duration_check c1Env
      ⟨⟨fun _ => true, fun _ => 5000, fun _ => 7⟩, true, "/tmp/out.mp4"⟩
      ["a.mp4", "b.mp4"] rfl rfl rfl rfl).1,
   (c1_no_duration_check ⟨c1Fs, false, "/tmp/out.mp4"⟩
      ⟨c1Fs, false, "/tmp/out.mp4"⟩
      ["a.mp4", "b.mp4"] rfl rfl rfl rfl).2 (by norm_num) rfl⟩

/-- The environment refuting C9: a 2-chunk parallel run in which both
segments render successfully and validate, but the final ffmpeg concat exits
non-zero.  `_combine_videos_with_improved_sync` returns `""`, and
`_generate_parallel_video_ultra_fast` then executes `return ""` (line 244):
the caller receives a normal success whose clip reference is the empty
string — no single-pass fallback runs and no exception is raised. -/
def c9Env : PipeEnv :=
  ⟨["c0.mp3", "c1.mp3"],
   fun i => if i = 0 then some "v0.mp4" else some "v1.mp4",
   ⟨fun _ => true, fun _ => 5000, fun _ => 6⟩,
   ⟨⟨fun _ => true, fun _ => 5000, fun _ => 6⟩, false, "/tmp/out.mp4"⟩,
   Except.ok "http://fallback", fun s => s⟩

/-- Counterexample to C9 as stated: the pipeline reaches the caller with a
third outcome — a success carrying an empty clip reference — although neither
strategy has been exhausted (the single-pass fallback was never attempted). -/
theorem c9_empty_success_counterexample :
    generateParallelVideoUltraFast c9Env = .emptyUrl ∧
      PipelineOutcome.emptyUrl ≠ .viaSingle (Except.ok "http://fallback") ∧
      PipelineOutcome.emptyUrl ≠ .clip "http://fallback" := by
  refine ⟨by decide, by decide, by decide⟩

/-- C9 amended: when every planned segment renders and validates but the
final combination fails (ffmpeg concat exits non-zero), the parallel pipeline
returns a success carrying an empty clip reference instead of escalating to
the single-pass fallback or raising a terminal error. -/
theorem c9_combine_failure_returns_empty (e : PipeEnv)
    (h1 : 1 < e.chunks.length)
    (h2 : (processChunksPaths e.chunks.length e.render).length = e.chunks.length)
    (h3 : validateVideoChunks e.fs (processChunksPaths e.chunks.length e.render) =
      processChunksPaths e.chunks.length e.render)
    (h4 : e.cenv.concatOk = false) :
    generateParallelVideoUltraFast e = .emptyUrl := by
  simp only [generateParallelVideoUltraFast]
  rw [if_neg (by omega), if_neg (by omega), if_neg (by rw [h3]; simp), if_neg (by rw [h3]; simp)]
  rw [combineVideos_concat_failed e.cenv _ (by omega) h4]

/-- Witness for `c9_combine_failure_returns_empty` on the concrete `c9Env`. -/
theorem c9_combine_failure_returns_empty_witness :
    1 < c9Env.chunks.length ∧ generateParallelVideoUltraFast c9Env = .emptyUrl :=
  ⟨by decide,
    c9_combine_failure_returns_empty c9Env (by decide) (by decide) (by decide) rfl⟩

/-- A cache state holding a valid entry for every key: even so, the ultra-fast
path re-invokes both external adapters (all cache consultation is commented
out in the source). -/
def c3FullCache : UltraCacheState :=
  ⟨fun _ => some "/tmp/cached_audio.mp3", fun _ => some "/tmp/cached_video.mp4"⟩

def c3Tts : String → String → String :=
  fun text agentType => "/tmp/tts/" ++ text ++ "_" ++ agentType ++ ".mp3"

def c3Avatar : String → String := fun a => "/avatars/" ++ a ++ ".jpg"

/-- Counterexample to C3 as stated: two identical requests ("hello", voice and
avatar of the "general" agent) with a valid cache entry present for every key
still invoke the speech-synthesis provider twice and the renderer twice; the
claim requires the second request to add zero invocations (totals 1 and 1). -/
theorem c3_cache_bypassed_counterexample :
    processTwiceUltraFast c3Tts c3Avatar c3FullCache "hello" "general" = ⟨2, 2⟩ ∧
      (⟨2, 2⟩ : CallCounts) ≠ ⟨1, 1⟩ := by
  exact ⟨rfl, by decide⟩

/-- C3 amended: caching in the ultra-fast path is disabled (the lookups and
writes are commented out), so every request — cached or not, identical or
not — invokes the synthesis provider exactly once and the renderer exactly
once, and the result is invariant under the cache state: no artifact is ever
resolved from the result cache. -/
theorem c3_every_request_reinvokes (cache1 cache2 : UltraCacheState)
    (c : CallCounts) (tts : String → String → String) (avatar : String → String)
    (text agentType : String) :
    (processRequestUltraFast tts avatar cache1 c text agentType).2 =
        ⟨c.tts + 1, c.wav2lip + 1⟩ ∧
      processRequestUltraFast tts avatar cache1 c text agentType =
        processRequestUltraFast tts avatar cache2 c text agentType :=
  ⟨rfl, rfl⟩

end VBVA
